import Mathlib

/-!
Verification development for the lrserver LiveReload server
(`server.go` and the package documentation file).

The Go code is shallowly embedded:

* Go strings are `String` (or `List Char` where the code works with
  positions of individual bytes/characters, as in address parsing);
* `uint16` values are `Nat` (every `uint16` arithmetic operation in the
  code stays below `2 ^ 16`, so no wrap-around modelling is needed; the
  only cast, `uint16(port64)` after a 16-bit-bounded parse, is the
  identity);
* a `*log.Logger` field, which may be nil, is an `Option` holding the
  list of lines written to that logger so far (`Println` appends a line);
* a Go channel is modelled by the list of values enqueued onto it,
  oldest first;
* `*conn` pointers are modelled as numeric ids allocated by a counter;
  the registry `connSet` (a Go map keyed by `*conn`) is a duplicate-free
  list of ids, and the per-connection state lives in a heap
  `connData : Nat → Conn`;
* fallible calls return a value paired with `Option String` mirroring
  Go's `(value, error)` tuples.
-/

namespace LR

/-- Per-connection state built by `newConn` in `server.go`: the
`handshake` flag and the three channels `reloadChan`, `alertChan`,
`closeChan`.  A channel is the list of values enqueued onto it. -/
structure Conn where
  handshake : Bool
  reloadChan : List String
  alertChan : List String
  closeChan : List Unit
  deriving Repr, DecidableEq

/-- The connection record `newConn` creates: `handshake: false` and three
freshly made (hence empty) channels. -/
def freshConn : Conn :=
  { handshake := false, reloadChan := [], alertChan := [], closeChan := [] }

/-- The `Server` struct of `server.go`.  The embedded `http.Server` is
flattened to the two of its fields the code reads: `ErrorLog`
(`errorLog` here) and `Addr` (`httpAddr`, never assigned by the code, so
it stays `""`).  `connData`, `nextId`, `started` and `serving` are the
modelling devices described in the header: the heap behind `*conn`
pointers, the pointer allocator, the set of connections whose
`go c.start()` was issued, and whether `Serve` was reached. -/
structure Server where
  name : String
  host : String
  port : Nat
  conns : List Nat
  connData : Nat → Conn
  nextId : Nat
  started : List Nat
  js : Option (String × Nat)
  statusLog : Option (List String)
  errorLog : Option (List String)
  httpAddr : String
  serving : Bool
  liveCSS : Bool

/-- Modelled from the spec: the `add` method of `connSet` is in a
repository file not under `src/`; `make(connSet)` and
`for conn := range s.conns` in `server.go` show `connSet` is a Go map
keyed by `*conn`, so `add` is map insertion (idempotent). -/
def connsAdd (cs : List Nat) (i : Nat) : List Nat :=
  if cs.contains i then cs else i :: cs

/-- Modelled from the spec: the `remove` method of `connSet` (file not
under `src/`) is map deletion. -/
def connsRemove (cs : List Nat) (i : Nat) : List Nat :=
  cs.filter (fun j => j != i)

/-- `New` from `server.go`: builds the server with the given name, host
and port, an empty registry, default status/error loggers writing to
stdout/stderr (present, nothing written yet), `liveCSS` defaulting to
true, and returns a nil error.  (The route registrations on the router
install handlers and do not change the fields modelled here.) -/
def New (name : String) (host : String) (port : Nat) : Server × Option String :=
  ({ name := name
     host := host
     port := port
     conns := []
     connData := fun _ => freshConn
     nextId := 0
     started := []
     js := none
     statusLog := some []
     errorLog := some []
     httpAddr := ""
     serving := false
     liveCSS := true }, none)

/-- `logStatus` from `server.go`: writes the line to the status logger
when it is non-nil, otherwise does nothing. -/
def logStatus (s : Server) (msg : String) : Server :=
  match s.statusLog with
  | none => s
  | some lines => { s with statusLog := some (lines ++ [msg]) }

/-- `logError` from `server.go`: writes the line to the error logger
when it is non-nil, otherwise does nothing. -/
def logError (s : Server) (msg : String) : Server :=
  match s.errorLog with
  | none => s
  | some lines => { s with errorLog := some (lines ++ [msg]) }

/-- The channel send `conn.reloadChan <- file` performed by `Reload` for
one registered connection. -/
def enqueueReload (file : String) (c : Conn) : Conn :=
  { c with reloadChan := c.reloadChan ++ [file] }

/-- The channel send `conn.alertChan <- msg` performed by `Alert` for
one registered connection. -/
def enqueueAlert (msg : String) (c : Conn) : Conn :=
  { c with alertChan := c.alertChan ++ [msg] }

/-- `Reload` from `server.go`: logs the request, then sends `file` on the
`reloadChan` of every connection in the registry (one send per registered
connection; connections outside the registry are untouched). -/
def Reload (s : Server) (file : String) : Server :=
  let s1 := logStatus s ("requesting reload: " ++ file)
  { s1 with connData := fun i =>
      if s1.conns.contains i then enqueueReload file (s1.connData i)
      else s1.connData i }

/-- `Alert` from `server.go`: logs the request, then sends `msg` on the
`alertChan` of every connection in the registry. -/
def Alert (s : Server) (msg : String) : Server :=
  let s1 := logStatus s ("requesting alert: " ++ msg)
  { s1 with connData := fun i =>
      if s1.conns.contains i then enqueueAlert msg (s1.connData i)
      else s1.connData i }

/-- `Name` getter from `server.go`. -/
def Name (s : Server) : String := s.name

/-- `Host` getter from `server.go`. -/
def Host (s : Server) : String := s.host

/-- `Port` getter from `server.go`. -/
def Port (s : Server) : Nat := s.port

/-- `LiveCSS` getter from `server.go`. -/
def LiveCSS (s : Server) : Bool := s.liveCSS

/-- `StatusLog` getter from `server.go`. -/
def StatusLog (s : Server) : Option (List String) := s.statusLog

/-- `ErrorLog` getter from `server.go` (reads `s.server.ErrorLog`). -/
def ErrorLog (s : Server) : Option (List String) := s.errorLog

/-- `SetLiveCSS` setter from `server.go`. -/
def SetLiveCSS (s : Server) (n : Bool) : Server :=
  { s with liveCSS := n }

/-- `SetStatusLog` setter from `server.go` (may be set to nil). -/
def SetStatusLog (s : Server) (l : Option (List String)) : Server :=
  { s with statusLog := l }

/-- `SetErrorLog` setter from `server.go` (writes `s.server.ErrorLog`). -/
def SetErrorLog (s : Server) (l : Option (List String)) : Server :=
  { s with errorLog := l }

/-- `newConn` from `server.go`: allocates a conn record with
`handshake: false` and three fresh channels, adds it to the registry with
`s.conns.add(c)`, and issues `go c.start()`.  Returns the new state and
the id of the created connection. -/
def newConn (s : Server) : Server × Nat :=
  let id := s.nextId
  ({ s with
      nextId := id + 1
      connData := fun i => if i = id then freshConn else s.connData i
      conns := connsAdd s.conns id
      started := id :: s.started }, id)

/-- Modelled from the spec: the Closing transition of the connection
state machine lives in a repository file not under `src/`; per §4.2/§4.3
of the spec it deregisters the connection from the registry (map
deletion) on its way to Closed. -/
def closeConn (s : Server) (id : Nat) : Server :=
  { s with conns := connsRemove s.conns id }

/-- Whether a character is a decimal digit, as tested by
`strconv.ParseUint` for base 10 (`'0' <= c && c <= '9'`). -/
def isDecDigit (c : Char) : Bool :=
  '0' ≤ c && c ≤ '9'

/-- The digit-accumulation loop of `strconv.ParseUint` for base 10.
`maxVal` is `1<<bitSize - 1`.  A non-digit character yields a syntax
error with value 0; exceeding `maxVal` yields a range error with value
`maxVal` (Go's `uint64` cutoff/overflow checks never fire before the
`n1 > maxVal` check does, for the 16-bit `maxVal` used here, so they
collapse into it over `Nat`). -/
def parseUintCore (maxVal : Nat) : Nat → List Char → Nat × Option String
  | n, [] => (n, none)
  | n, c :: cs =>
    if isDecDigit c then
      let n1 := n * 10 + (c.toNat - 48)
      if n1 > maxVal then (maxVal, some "value out of range")
      else parseUintCore maxVal n1 cs
    else (0, some "invalid syntax")

/-- `strconv.ParseUint(s, 10, bitSize)`: empty input is a syntax error;
otherwise the accumulation loop runs over the characters. -/
def parseUint (s : List Char) (bitSize : Nat) : Nat × Option String :=
  if s = [] then (0, some "invalid syntax")
  else parseUintCore (2 ^ bitSize - 1) 0 s

/-- Splits a list at the first occurrence of `c`:
`splitFirst c s = some (pre, post)` with `s = pre ++ c :: post` and
`c ∉ pre`; `none` when `c` does not occur.  Used for the first `']'` in
`net.SplitHostPort`. -/
def splitFirst (c : Char) : List Char → Option (List Char × List Char)
  | [] => none
  | x :: xs =>
    if x = c then some ([], xs)
    else
      match splitFirst c xs with
      | some (pre, post) => some (x :: pre, post)
      | none => none

/-- Splits a list at the last occurrence of `c`:
`splitLast c s = some (pre, post)` with `s = pre ++ c :: post` and
`c ∉ post`; `none` when `c` does not occur.  This is
`net.SplitHostPort`'s "the port starts after the last colon". -/
def splitLast (c : Char) : List Char → Option (List Char × List Char)
  | [] => none
  | x :: xs =>
    match splitLast c xs with
    | some (pre, post) => some (x :: pre, post)
    | none => if x = c then some ([], xs) else none

/-- `net.SplitHostPort`: the port starts after the last colon; an
address starting with `'['` must have its first `']'` immediately before
that last colon; an unbracketed host may not contain a colon; outside
the bracketed host no `'['` or `']'` may occur.  Success returns
`(host, port)`. -/
def splitHostPort (hostPort : List Char) : (List Char × List Char) × Option String :=
  match splitLast ':' hostPort with
  | none => (([], []), some "missing port in address")
  | some (pre, post) =>
    if hostPort.head? = some '[' then
      match splitFirst ']' hostPort.tail with
      | none => (([], []), some "missing close bracket in address")
      | some (mid, tail) =>
        match tail with
        | [] =>
          -- the first close bracket ends the address: no port follows
          (([], []), some "missing port in address")
        | c :: t =>
          if c = ':' then
            if t.contains ':' then
              -- the colon after the close bracket is not the last colon
              (([], []), some "too many colons in address")
            else if (mid ++ ']' :: ':' :: t).contains '[' then
              (([], []), some "unexpected open bracket in address")
            else if (':' :: t).contains ']' then
              (([], []), some "unexpected close bracket in address")
            else ((mid, t), none)
          else
            -- the close bracket is not followed by a colon
            (([], []), some "missing port in address")
    else
      if pre.contains ':' then (([], []), some "too many colons in address")
      else if hostPort.contains '[' then
        (([], []), some "unexpected open bracket in address")
      else if hostPort.contains ']' then
        (([], []), some "unexpected close bracket in address")
      else ((pre, post), none)

/-- Decimal digit characters of a natural number, most significant
first: what `fmt`'s `%d` prints. -/
def decRepr (n : Nat) : List Char :=
  if n = 0 then ['0']
  else ((Nat.digits 10 n).map Nat.digitChar).reverse

/-- `makeAddr` from `server.go`: `fmt.Sprintf(":%d", port)`. -/
def makeAddr (port : Nat) : List Char :=
  ':' :: decRepr port

/-- `makePort` from `server.go`: splits the address with
`net.SplitHostPort`, then parses the port string with
`strconv.ParseUint(portString, 10, 16)`; either failure returns port 0
together with the error. -/
def makePort (addr : List Char) : Nat × Option String :=
  match splitHostPort addr with
  | (_, some err) => (0, some err)
  | ((_, portString), none) =>
    match parseUint portString 16 with
    | (_, some err) => (0, some err)
    | (port64, none) => (port64, none)

/-- `strings.Split(s, ":")`: the segments of `s` between occurrences of
`':'` (n+1 segments for n separators). -/
def stringsSplit (sep : Char) : List Char → List (List Char)
  | [] => [[]]
  | c :: cs =>
    if c = sep then [] :: stringsSplit sep cs
    else
      match stringsSplit sep cs with
      | [] => [[c]]
      | h :: t => (c :: h) :: t

/-- Outcome of `net.Listen("tcp", s.Addr())`: either the bind error, or
a listener whose `Addr().String()` is the given character list. -/
inductive BindResult where
  | bindFailure (err : String)
  | bindSuccess (listenerAddr : List Char)
  deriving Repr, DecidableEq

/-- `ListenAndServe` from `server.go`.  When the listen fails the error
is returned at once and nothing else happens.  On success: when the
configured port is 0, `strings.Split(l.Addr().String(), ":")` is taken
and `s.host, s.port` are assigned from its first two segments (the port
parsed leniently, its error discarded; a listener address always
contains a colon, so the segment lookups use a default that the code
would reach only by panicking); then `s.js` is formatted from the
(possibly updated) host and port, the status line
`"listening on " + s.server.Addr` is logged, and `Serve` begins (its
eventual return value, produced only at shutdown, is not modelled). -/
def ListenAndServe (s : Server) (r : BindResult) : Server × Option String :=
  match r with
  | .bindFailure err => (s, some err)
  | .bindSuccess listenerAddr =>
    let s1 :=
      if s.port = 0 then
        let addr := stringsSplit ':' listenerAddr
        let port := (parseUint (addr.getD 1 []) 16).1
        { s with host := String.mk (addr.getD 0 []), port := port }
      else s
    let s2 := { s1 with js := some (s1.host, s1.port) }
    let s3 := logStatus s2 ("listening on " ++ s2.httpAddr)
    ({ s3 with serving := true }, none)

/-- The mutating operations of the server's programmatic surface in
`server.go` (every exported method that can change the `Server` plus the
internal `newConn` reached from the upgrade handler; the remaining
exported methods `Name`, `Addr`, `Host`, `Port`, `LiveCSS`, `StatusLog`,
`ErrorLog` are read-only getters). -/
inductive ServerOp where
  | opListenAndServe (r : BindResult)
  | opReload (file : String)
  | opAlert (msg : String)
  | opSetLiveCSS (b : Bool)
  | opSetStatusLog (l : Option (List String))
  | opSetErrorLog (l : Option (List String))
  | opNewConn

/-- State effect of one operation of the programmatic surface. -/
def applyOp (op : ServerOp) (s : Server) : Server :=
  match op with
  | .opListenAndServe r => (ListenAndServe s r).1
  | .opReload file => Reload s file
  | .opAlert msg => Alert s msg
  | .opSetLiveCSS b => SetLiveCSS s b
  | .opSetStatusLog l => SetStatusLog s l
  | .opSetErrorLog l => SetErrorLog s l
  | .opNewConn => (newConn s).1

/-- Modelled from the spec: the protocol-version URI the server
supports, named in §6/§8 of the spec (the connection machinery is in a
repository file not under `src/`). -/
def serverProtocol : String :=
  "http://livereload.com/protocols/official-7"

/-- Modelled from the spec (§4.2): the states of a Connection's state
machine. -/
inductive ConnState where
  | connecting
  | awaitingHandshake
  | live
  | closing
  | closed
  deriving Repr, DecidableEq

/-- Modelled from the spec (§3/§4.2): the mutable part of one
Connection visible to the state machine. -/
structure ConnSM where
  state : ConnState
  handshakeComplete : Bool
  deriving Repr, DecidableEq

/-- A Connection starts in Connecting with `handshakeComplete = false`
(matching the `handshake: false` initialisation in `newConn`). -/
def initConnSM : ConnSM :=
  { state := .connecting, handshakeComplete := false }

/-- Modelled from the spec (§4.2/§5): the events a Connection's loop can
observe — entry into the reading window, an inbound `hello`, any other
inbound frame, a socket read/write failure, a rendezvous on one of the
three queues, and the final close step. -/
inductive ConnEvent where
  | enter
  | recvHello (protocols : List String)
  | recvOther
  | socketFailure
  | queuedReload (file : String)
  | queuedAlert (msg : String)
  | closeSignal
  | finishClose

/-- Modelled from the spec (§4.1/§6): the frames the server writes to
one socket. -/
inductive Frame where
  | helloFrame
  | reloadFrame (path : String) (liveCSS : Bool)
  | alertFrame (message : String)
  deriving Repr, DecidableEq

/-- Whether a step's output is a reload or alert command frame (the
frames claim gating is about; the handshake reply is not one). -/
def isCmdFrame : Option Frame → Bool
  | some (.reloadFrame _ _) => true
  | some (.alertFrame _) => true
  | _ => false

/-- Modelled from the spec (§4.2): one step of the Connection state
machine, returning the new state and the frame written to the socket,
if any.  Connecting immediately moves to AwaitingHandshake; a supported
`hello` writes the server hello, sets `handshakeComplete` and enters
Live; an unsupported or non-`hello` first frame, or a socket failure,
moves to Closing writing nothing; in Live a queued reload/alert is
written out, other inbound traffic is ignored, and failures or the
close signal move to Closing; Closing finishes into Closed.  The queue
rendezvous events only fire in Live (§4.2: only Live waits on the
queues), so elsewhere they change nothing and write nothing. -/
def connStep (liveCSS : Bool) (c : ConnSM) (e : ConnEvent) : ConnSM × Option Frame :=
  match c.state, e with
  | .connecting, .enter => ({ c with state := .awaitingHandshake }, none)
  | .awaitingHandshake, .recvHello protocols =>
    if protocols.contains serverProtocol then
      ({ state := .live, handshakeComplete := true }, some .helloFrame)
    else
      ({ c with state := .closing }, none)
  | .awaitingHandshake, .recvOther => ({ c with state := .closing }, none)
  | .awaitingHandshake, .socketFailure => ({ c with state := .closing }, none)
  | .live, .queuedReload file => (c, some (.reloadFrame file liveCSS))
  | .live, .queuedAlert msg => (c, some (.alertFrame msg))
  | .live, .recvHello _ => (c, none)
  | .live, .recvOther => (c, none)
  | .live, .socketFailure => ({ c with state := .closing }, none)
  | .live, .closeSignal => ({ c with state := .closing }, none)
  | .closing, .finishClose => ({ c with state := .closed }, none)
  | _, _ => (c, none)

/-- Whether, along a run of the machine from `c` through the events,
some step writes a command frame while the pre-state's handshake is
still incomplete. -/
def writeBeforeHandshake (liveCSS : Bool) : ConnSM → List ConnEvent → Bool
  | _, [] => false
  | c, e :: es =>
    let r := connStep liveCSS c e
    (isCmdFrame r.2 && !c.handshakeComplete) || writeBeforeHandshake liveCSS r.1 es

/-- The value of a decimal digit string read left to right starting
from accumulator `a` (48 is the code of the zero digit); used to state
what `parseUintCore` computes. -/
def decValFrom (a : Nat) (cs : List Char) : Nat :=
  cs.foldl (fun x c => x * 10 + (c.toNat - 48)) a

/-- Whether a character list is a decimal numeral whose value fits in
16 bits: nonempty, all decimal digits, value at most 65535 — exactly
the strings `strconv.ParseUint(s, 10, 16)` accepts. -/
def isPort16 (cs : List Char) : Bool :=
  !cs.isEmpty && cs.all isDecDigit && decide (decValFrom 0 cs ≤ 65535)

/-- A concrete server with one registered connection (id 7), used by
witnesses. -/
def srv1 : Server :=
  { (New "n" "h" 80).1 with conns := [7] }

/-! ### Helper lemmas -/

theorem logStatus_conns (s : Server) (m : String) :
    (logStatus s m).conns = s.conns := by
  cases h : s.statusLog <;> simp [logStatus, h]

theorem logStatus_connData (s : Server) (m : String) :
    (logStatus s m).connData = s.connData := by
  cases h : s.statusLog <;> simp [logStatus, h]

theorem logStatus_name (s : Server) (m : String) :
    (logStatus s m).name = s.name := by
  cases h : s.statusLog <;> simp [logStatus, h]

theorem logStatus_of_none (s : Server) (m : String) (h : s.statusLog = none) :
    logStatus s m = s := by
  simp [logStatus, h]

theorem logStatus_of_some (s : Server) (m : String) (lines : List String)
    (h : s.statusLog = some lines) :
    logStatus s m = { s with statusLog := some (lines ++ [m]) } := by
  simp [logStatus, h]

theorem Reload_connData (s : Server) (file : String) (i : Nat) :
    (Reload s file).connData i =
      if s.conns.contains i then enqueueReload file (s.connData i)
      else s.connData i := by
  simp [Reload, logStatus_conns, logStatus_connData]

theorem Alert_connData (s : Server) (msg : String) (i : Nat) :
    (Alert s msg).connData i =
      if s.conns.contains i then enqueueAlert msg (s.connData i)
      else s.connData i := by
  simp [Alert, logStatus_conns, logStatus_connData]

theorem Reload_statusLog (s : Server) (file : String) :
    (Reload s file).statusLog
      = (logStatus s ("requesting reload: " ++ file)).statusLog := rfl

theorem Alert_statusLog (s : Server) (msg : String) :
    (Alert s msg).statusLog
      = (logStatus s ("requesting alert: " ++ msg)).statusLog := rfl

theorem contains_iff_mem {α : Type} [BEq α] [LawfulBEq α] (l : List α) (a : α) :
    l.contains a = true ↔ a ∈ l := by
  simp

theorem applyOp_name (op : ServerOp) (s : Server) :
    (applyOp op s).name = s.name := by
  cases op with
  | opListenAndServe r =>
    cases r with
    | bindFailure err => rfl
    | bindSuccess listenerAddr =>
      show (logStatus _ _).name = s.name
      rw [logStatus_name]
      by_cases h : s.port = 0 <;> simp [h]
  | opReload file => show (Reload s file).name = s.name; simp [Reload, logStatus_name]
  | opAlert msg => show (Alert s msg).name = s.name; simp [Alert, logStatus_name]
  | opSetLiveCSS b => rfl
  | opSetStatusLog l => rfl
  | opSetErrorLog l => rfl
  | opNewConn => rfl

/-! ### The claims -/

/-- C9: for every name, host and port, `New` returns a server (never
nil) and a nil error; on it `Name`, `Host`, `Port` return the arguments
(before `ListenAndServe` reassigns a zero port), the registry is empty,
and `LiveCSS` defaults to true. -/
theorem New_initial_state (name host : String) (port : Nat) :
    (New name host port).2 = none ∧
    Name (New name host port).1 = name ∧
    Host (New name host port).1 = host ∧
    Port (New name host port).1 = port ∧
    (New name host port).1.conns = [] ∧
    LiveCSS (New name host port).1 = true :=
  ⟨rfl, rfl, rfl, rfl, rfl, rfl⟩

/-- C6: when the TCP listener cannot bind, `ListenAndServe` returns the
bind error synchronously with the server state fully unchanged: no
serving begins, and the registry and every connection's state are
untouched. -/
theorem listen_bind_failure (s : Server) (err : String) :
    ListenAndServe s (.bindFailure err) = (s, some err) ∧
    (ListenAndServe s (.bindFailure err)).1.serving = s.serving ∧
    (ListenAndServe s (.bindFailure err)).1.conns = s.conns ∧
    (ListenAndServe s (.bindFailure err)).1.connData = s.connData :=
  ⟨rfl, rfl, rfl, rfl⟩

/-- C1: `Reload file` sends `file` exactly once onto the reload channel
of every connection in the registry, and touches no state of a
connection outside the registry; `Alert` does the same on the alert
channels.  (That the call returns after issuing the sends, without
waiting for a client to read them, is a scheduling property with no
counterpart in this sequential embedding; the state effect proved here
is exactly the issued sends.) -/
theorem reload_alert_fanout (s : Server) (file msg : String) (i : Nat) :
    (i ∈ s.conns →
      ((Reload s file).connData i).reloadChan
          = (s.connData i).reloadChan ++ [file] ∧
      ((Alert s msg).connData i).alertChan
          = (s.connData i).alertChan ++ [msg]) ∧
    (i ∉ s.conns →
      (Reload s file).connData i = s.connData i ∧
      (Alert s msg).connData i = s.connData i) := by
  constructor
  · intro hmem
    have hc : s.conns.contains i = true := (contains_iff_mem s.conns i).mpr hmem
    rw [Reload_connData, Alert_connData, hc]
    exact ⟨rfl, rfl⟩
  · intro hmem
    have hc : s.conns.contains i = false := by
      cases h : s.conns.contains i
      · rfl
      · exact absurd ((contains_iff_mem s.conns i).mp h) hmem
    rw [Reload_connData, Alert_connData, hc]
    exact ⟨rfl, rfl⟩

theorem reload_enqueue_of_mem (s : Server) (file : String) (i : Nat)
    (h : i ∈ s.conns) :
    ((Reload s file).connData i).reloadChan
      = (s.connData i).reloadChan ++ [file] := by
  simp [Reload_connData, h, enqueueReload]

theorem alert_enqueue_of_mem (s : Server) (msg : String) (i : Nat)
    (h : i ∈ s.conns) :
    ((Alert s msg).connData i).alertChan
      = (s.connData i).alertChan ++ [msg] := by
  simp [Alert_connData, h, enqueueAlert]

theorem contains_eq_false_of_not_mem {α : Type} [BEq α] [LawfulBEq α]
    (l : List α) (a : α) (h : a ∉ l) :
    l.contains a = false := by
  cases hc : l.contains a
  · rfl
  · exact absurd ((contains_iff_mem l a).mp hc) h

/-- C1 witness: on the concrete server, `Reload`/`Alert` append to the
registered connection's channels and leave an unregistered connection
(id 9) untouched. -/
theorem reload_alert_fanout_witness :
    (((Reload srv1 "x.css").connData 7).reloadChan
        = (srv1.connData 7).reloadChan ++ ["x.css"] ∧
      ((Alert srv1 "m").connData 7).alertChan
        = (srv1.connData 7).alertChan ++ ["m"]) ∧
    ((Reload srv1 "x.css").connData 9 = srv1.connData 9 ∧
      (Alert srv1 "m").connData 9 = srv1.connData 9) :=
  ⟨(reload_alert_fanout srv1 "x.css" "m" 7).1 (by decide),
   (reload_alert_fanout srv1 "x.css" "m" 9).2 (by decide)⟩

/-- C3: a connection the Closing transition has deregistered is absent
from the registry, and any `Reload`/`Alert` call on a server state where
it is unregistered leaves the connection's state (all its queues)
unchanged — the enqueue towards a Closed connection is a silent no-op.
(That such a call also never blocks on the closed connection is a
scheduling property with no counterpart in this sequential embedding.) -/
theorem closed_conn_silent (s t : Server) (id : Nat) (file msg : String)
    (h : t.conns.contains id = false) :
    (closeConn s id).conns.contains id = false ∧
    (Reload t file).connData id = t.connData id ∧
    (Alert t msg).connData id = t.connData id := by
  have hm : id ∉ t.conns := by
    intro hmem
    rw [(contains_iff_mem t.conns id).mpr hmem] at h
    cases h
  refine ⟨?_, ?_, ?_⟩
  · apply contains_eq_false_of_not_mem
    simp [closeConn, connsRemove, List.mem_filter]
  · simp [Reload_connData, hm]
  · simp [Alert_connData, hm]

/-- C3 witness: closing the concrete server's only connection removes it
from the registry, and the following `Reload`/`Alert` leave its state
untouched. -/
theorem closed_conn_silent_witness :
    (closeConn srv1 7).conns.contains 7 = false ∧
    (Reload (closeConn srv1 7) "x.css").connData 7 = (closeConn srv1 7).connData 7 ∧
    (Alert (closeConn srv1 7) "m").connData 7 = (closeConn srv1 7).connData 7 :=
  closed_conn_silent srv1 (closeConn srv1 7) 7 "x.css" "m" (by decide)

/-- C7: with a nil status logger, `Reload` and `Alert` write no status
line and still perform every enqueue to registered connections (and they
cannot fail: they are total); `logError` with a nil error logger is a
no-op; with a status logger present, `Reload` and `Alert` append the
request line to it. -/
theorem optional_log_sinks (s : Server) (file msg emsg : String) (i : Nat) :
    (s.statusLog = none →
      (Reload s file).statusLog = none ∧
      (Alert s msg).statusLog = none ∧
      (i ∈ s.conns →
        ((Reload s file).connData i).reloadChan
            = (s.connData i).reloadChan ++ [file] ∧
        ((Alert s msg).connData i).alertChan
            = (s.connData i).alertChan ++ [msg])) ∧
    (s.errorLog = none → logError s emsg = s) ∧
    (∀ lines, s.statusLog = some lines →
      (Reload s file).statusLog = some (lines ++ ["requesting reload: " ++ file]) ∧
      (Alert s msg).statusLog = some (lines ++ ["requesting alert: " ++ msg])) := by
  refine ⟨?_, ?_, ?_⟩
  · intro hnone
    refine ⟨?_, ?_, fun hm =>
      ⟨reload_enqueue_of_mem s file i hm, alert_enqueue_of_mem s msg i hm⟩⟩
    · rw [Reload_statusLog, logStatus_of_none s _ hnone]; exact hnone
    · rw [Alert_statusLog, logStatus_of_none s _ hnone]; exact hnone
  · intro hnone
    simp [logError, hnone]
  · intro lines hsome
    constructor
    · rw [Reload_statusLog, logStatus_of_some s _ lines hsome]
    · rw [Alert_statusLog, logStatus_of_some s _ lines hsome]

/-- C7 witness: on the concrete server with both sinks removed, `Reload`
and `Alert` log nothing, the enqueue to connection 7 still happens, and
`logError` is the identity; on the server with its default sink, both
requests are logged. -/
theorem optional_log_sinks_witness :
    ((Reload (SetStatusLog (SetErrorLog srv1 none) none) "f").statusLog = none ∧
     (Alert (SetStatusLog (SetErrorLog srv1 none) none) "m").statusLog = none ∧
     ((Reload (SetStatusLog (SetErrorLog srv1 none) none) "f").connData 7).reloadChan
        = ((SetStatusLog (SetErrorLog srv1 none) none).connData 7).reloadChan ++ ["f"] ∧
     logError (SetStatusLog (SetErrorLog srv1 none) none) "e"
        = SetStatusLog (SetErrorLog srv1 none) none) ∧
    ((Reload srv1 "f").statusLog = some ([] ++ ["requesting reload: " ++ "f"]) ∧
     (Alert srv1 "m").statusLog = some ([] ++ ["requesting alert: " ++ "m"])) := by
  have T := optional_log_sinks (SetStatusLog (SetErrorLog srv1 none) none) "f" "m" "e" 7
  refine ⟨⟨(T.1 rfl).1, (T.1 rfl).2.1, ((T.1 rfl).2.2 (by decide)).1, T.2.1 rfl⟩, ?_⟩
  exact (optional_log_sinks srv1 "f" "m" "e" 7).2.2 [] rfl

/-- C8: `newConn` builds the new connection in its initial state —
`handshake = false` and fresh empty reload/alert/close channels — adds
it to the registry exactly once (given that the allocated id is fresh),
and starts its state machine. -/
theorem newConn_creates_and_registers (s : Server)
    (h : s.conns.contains s.nextId = false) :
    (newConn s).1.connData (newConn s).2 = freshConn ∧
    ((newConn s).1.connData (newConn s).2).handshake = false ∧
    ((newConn s).1.conns).count (newConn s).2 = 1 ∧
    (newConn s).2 ∈ (newConn s).1.started := by
  refine ⟨?_, ?_, ?_, ?_⟩
  · simp [newConn]
  · simp [newConn, freshConn]
  · have hnm : s.nextId ∉ s.conns := by
      intro hm
      rw [(contains_iff_mem s.conns s.nextId).mpr hm] at h
      cases h
    simp [newConn, connsAdd, hnm, List.count_cons_self, List.count_eq_zero.mpr hnm]
  · simp [newConn]

/-- C8 witness: on the concrete server the freshly created connection 0
starts unhandshaken with empty channels, is registered exactly once, and
its state machine is started. -/
theorem newConn_creates_and_registers_witness :
    (newConn srv1).1.connData (newConn srv1).2 = freshConn ∧
    ((newConn srv1).1.connData (newConn srv1).2).handshake = false ∧
    ((newConn srv1).1.conns).count (newConn srv1).2 = 1 ∧
    (newConn srv1).2 ∈ (newConn srv1).1.started :=
  newConn_creates_and_registers srv1 (by decide)

/-- C5 counterexample: the claim says every configuration field, the
name included, has an explicit setter; but no operation of the server's
programmatic surface can change the name — so no set-name-then-read-name
round trip exists. -/
theorem no_name_setter :
    ¬ ∃ op : ServerOp, Name (applyOp op srv1) = "changed" := by
  rintro ⟨op, h⟩
  rw [Name, applyOp_name] at h
  exact absurd h (by decide)

/-- C5 amended: the live-CSS flag, status sink and error sink are
individually mutable via explicit setters satisfying get-after-set;
name, host and port have getters only — in particular no operation of
the programmatic surface changes the name. -/
theorem setter_getter_roundtrip (s : Server) (b : Bool)
    (l₁ l₂ : Option (List String)) :
    LiveCSS (SetLiveCSS s b) = b ∧
    StatusLog (SetStatusLog s l₁) = l₁ ∧
    ErrorLog (SetErrorLog s l₂) = l₂ ∧
    (∀ op : ServerOp, Name (applyOp op s) = Name s) :=
  ⟨rfl, rfl, rfl, fun op => applyOp_name op s⟩

theorem writeBeforeHandshake_false_aux (lc : Bool) (evs : List ConnEvent) :
    ∀ c : ConnSM, (c.state = ConnState.live → c.handshakeComplete = true) →
      writeBeforeHandshake lc c evs = false := by
  induction evs with
  | nil => intro c _; rfl
  | cons e es ih =>
    rintro ⟨st, hs⟩ hinv
    cases st
    case live =>
      have hhs : hs = true := hinv rfl
      subst hhs
      cases e <;>
        simp only [writeBeforeHandshake, connStep, isCmdFrame, Bool.not_true,
          Bool.and_false, Bool.false_and, Bool.true_and, Bool.false_or,
          Bool.or_false] <;>
        exact ih _ (fun _ => rfl)
    case awaitingHandshake =>
      cases e with
      | recvHello ps =>
        simp only [writeBeforeHandshake, connStep]
        by_cases hp : ps.contains serverProtocol
        · simp only [hp, if_true, isCmdFrame, Bool.false_and, Bool.false_or]
          exact ih _ (fun _ => rfl)
        · simp only [hp, if_false, isCmdFrame, Bool.false_and, Bool.false_or]
          exact ih _ (fun h => ConnState.noConfusion h)
      | enter =>
        simp only [writeBeforeHandshake, connStep, isCmdFrame, Bool.false_and,
          Bool.false_or]
        exact ih _ (fun h => ConnState.noConfusion h)
      | recvOther =>
        simp only [writeBeforeHandshake, connStep, isCmdFrame, Bool.false_and,
          Bool.false_or]
        exact ih _ (fun h => ConnState.noConfusion h)
      | socketFailure =>
        simp only [writeBeforeHandshake, connStep, isCmdFrame, Bool.false_and,
          Bool.false_or]
        exact ih _ (fun h => ConnState.noConfusion h)
      | queuedReload file =>
        simp only [writeBeforeHandshake, connStep, isCmdFrame, Bool.false_and,
          Bool.false_or]
        exact ih _ (fun h => ConnState.noConfusion h)
      | queuedAlert msg =>
        simp only [writeBeforeHandshake, connStep, isCmdFrame, Bool.false_and,
          Bool.false_or]
        exact ih _ (fun h => ConnState.noConfusion h)
      | closeSignal =>
        simp only [writeBeforeHandshake, connStep, isCmdFrame, Bool.false_and,
          Bool.false_or]
        exact ih _ (fun h => ConnState.noConfusion h)
      | finishClose =>
        simp only [writeBeforeHandshake, connStep, isCmdFrame, Bool.false_and,
          Bool.false_or]
        exact ih _ (fun h => ConnState.noConfusion h)
    all_goals
      cases e <;>
        simp only [writeBeforeHandshake, connStep, isCmdFrame, Bool.false_and,
          Bool.false_or] <;>
        exact ih _ (fun h => ConnState.noConfusion h)

/-- C2: (a) along every event trace from a connection's initial state,
no reload or alert frame is ever written while that connection's
handshake is incomplete; (b) `handshakeComplete` turns from false to
true only on receipt of a client hello declaring the supported protocol,
and that very step writes the server hello. -/
theorem handshake_gating :
    (∀ (lc : Bool) (evs : List ConnEvent),
      writeBeforeHandshake lc initConnSM evs = false) ∧
    (∀ (lc : Bool) (c : ConnSM) (e : ConnEvent),
      c.handshakeComplete = false →
      (connStep lc c e).1.handshakeComplete = true →
      ∃ ps, e = ConnEvent.recvHello ps ∧ ps.contains serverProtocol = true ∧
        (connStep lc c e).2 = some Frame.helloFrame) := by
  constructor
  · intro lc evs
    exact writeBeforeHandshake_false_aux lc evs initConnSM
      (fun h => ConnState.noConfusion h)
  · rintro lc ⟨st, hs⟩ e hfalse htrue
    subst hfalse
    cases st <;> cases e <;>
        simp only [connStep] at htrue ⊢ <;>
        try cases htrue
    case awaitingHandshake.recvHello ps =>
      by_cases hp : ps.contains serverProtocol
      · simp only [hp, if_true] at htrue ⊢
        exact ⟨ps, rfl, by simpa using hp, trivial⟩
      · simp only [hp, if_false] at htrue
        cases htrue

/-- C2 witness: from AwaitingHandshake with the handshake incomplete, a
hello carrying the supported protocol flips `handshakeComplete` and the
step emits the server hello frame. -/
theorem handshake_gating_witness :
    ∃ ps, ConnEvent.recvHello [serverProtocol] = ConnEvent.recvHello ps ∧
      ps.contains serverProtocol = true ∧
      (connStep true ⟨ConnState.awaitingHandshake, false⟩
        (ConnEvent.recvHello [serverProtocol])).2 = some Frame.helloFrame :=
  handshake_gating.2 true ⟨ConnState.awaitingHandshake, false⟩
    (ConnEvent.recvHello [serverProtocol]) rfl (by decide)

theorem splitLast_eq_none (c : Char) (s : List Char) (h : c ∉ s) :
    splitLast c s = none := by
  induction s with
  | nil => rfl
  | cons x xs ih =>
    have hx : ¬(x = c) := fun e => h (e ▸ List.mem_cons_self x xs)
    have hxs : c ∉ xs := fun m => h (List.mem_cons_of_mem x m)
    simp [splitLast, ih hxs, hx]

theorem splitLast_append (c : Char) (u v : List Char) (hv : c ∉ v) :
    splitLast c (u ++ c :: v) = some (u, v) := by
  induction u with
  | nil => simp [splitLast, splitLast_eq_none c v hv]
  | cons x u ih => simp [splitLast, ih]

theorem splitFirst_decomp (c : Char) (s : List Char) :
    ∀ pre post, splitFirst c s = some (pre, post) → s = pre ++ c :: post := by
  induction s with
  | nil => intro pre post h; cases h
  | cons x xs ih =>
    intro pre post h
    rw [splitFirst] at h
    by_cases hx : x = c
    · rw [if_pos hx] at h
      simp only [Option.some.injEq, Prod.mk.injEq] at h
      obtain ⟨h1, h2⟩ := h
      subst h1; subst h2; subst hx
      rfl
    · rw [if_neg hx] at h
      cases hsf : splitFirst c xs with
      | none => simp only [hsf] at h; cases h
      | some pq =>
        obtain ⟨p, q⟩ := pq
        simp only [hsf, Option.some.injEq, Prod.mk.injEq] at h
        obtain ⟨h1, h2⟩ := h
        subst h1; subst h2
        rw [ih p q hsf]
        rfl

theorem decValFrom_cons (a : Nat) (c : Char) (cs : List Char) :
    decValFrom a (c :: cs) = decValFrom (a * 10 + (c.toNat - 48)) cs := rfl

theorem decValFrom_ge (cs : List Char) : ∀ a, a ≤ decValFrom a cs := by
  induction cs with
  | nil => intro a; exact Nat.le_refl a
  | cons c cs ih =>
    intro a
    rw [decValFrom_cons]
    have := ih (a * 10 + (c.toNat - 48))
    omega

theorem parseUintCore_ok (m : Nat) (cs : List Char) :
    ∀ a, a ≤ m → cs.all isDecDigit = true → decValFrom a cs ≤ m →
      parseUintCore m a cs = (decValFrom a cs, none) := by
  induction cs with
  | nil => intro a _ _ _; rfl
  | cons c cs ih =>
    intro a _ hall hval
    rw [List.all_cons, Bool.and_eq_true] at hall
    obtain ⟨hc, hcs⟩ := hall
    rw [decValFrom_cons] at hval ⊢
    have hlt : a * 10 + (c.toNat - 48) ≤ m :=
      le_trans (decValFrom_ge cs _) hval
    rw [parseUintCore, if_pos hc]
    simp only []
    rw [if_neg (by omega)]
    exact ih _ hlt hcs hval

theorem parseUintCore_err (m : Nat) (cs : List Char) :
    ∀ a, a ≤ m → ¬(cs.all isDecDigit = true ∧ decValFrom a cs ≤ m) →
      ((parseUintCore m a cs).2).isSome = true := by
  induction cs with
  | nil =>
    intro a ham hbad
    exact absurd ⟨rfl, ham⟩ hbad
  | cons c cs ih =>
    intro a _ hbad
    by_cases hc : isDecDigit c = true
    · rw [parseUintCore, if_pos hc]
      simp only []
      by_cases hov : a * 10 + (c.toNat - 48) > m
      · rw [if_pos hov]; rfl
      · rw [if_neg hov]
        refine ih _ (by omega) ?_
        rintro ⟨hall2, hval2⟩
        refine hbad ⟨?_, ?_⟩
        · rw [List.all_cons, Bool.and_eq_true]; exact ⟨hc, hall2⟩
        · rw [decValFrom_cons]; exact hval2
    · have hc2 : isDecDigit c = false := by
        cases h2 : isDecDigit c
        · rfl
        · exact absurd h2 hc
      rw [parseUintCore, if_neg hc]
      rfl

theorem parseUint_ok (cs : List Char) (h : isPort16 cs = true) :
    parseUint cs 16 = (decValFrom 0 cs, none) := by
  rw [isPort16, Bool.and_eq_true, Bool.and_eq_true] at h
  obtain ⟨⟨hne, hall⟩, hval⟩ := h
  have hne2 : cs ≠ [] := by
    cases cs
    · cases hne
    · intro h2; cases h2
  rw [parseUint, if_neg hne2]
  have hm : (2 : Nat) ^ 16 - 1 = 65535 := by norm_num
  rw [hm]
  exact parseUintCore_ok 65535 cs 0 (by omega) hall (by simpa using hval)

theorem parseUint_err (cs : List Char) (h : isPort16 cs = false) :
    ((parseUint cs 16).2).isSome = true := by
  by_cases hne : cs = []
  · subst hne; rfl
  · rw [parseUint, if_neg hne]
    have hm : (2 : Nat) ^ 16 - 1 = 65535 := by norm_num
    rw [hm]
    refine parseUintCore_err 65535 cs 0 (by omega) ?_
    rintro ⟨hall, hval⟩
    rw [isPort16, hall] at h
    have hie : cs.isEmpty = false := by
      cases cs
      · exact absurd rfl hne
      · rfl
    rw [hie] at h
    simp [hval] at h

theorem digitChar_toNat : ∀ d, d < 10 → (Nat.digitChar d).toNat - 48 = d := by decide

theorem digitChar_isDec : ∀ d, d < 10 → isDecDigit (Nat.digitChar d) = true := by decide

theorem decRepr_all_digits (p : Nat) : ∀ c ∈ decRepr p, isDecDigit c = true := by
  intro c hc
  rw [decRepr] at hc
  by_cases hp : p = 0
  · rw [if_pos hp] at hc
    rcases List.mem_singleton.mp hc with rfl
    rfl
  · rw [if_neg hp] at hc
    rw [List.mem_reverse] at hc
    obtain ⟨d, hd, rfl⟩ := List.mem_map.mp hc
    exact digitChar_isDec d (Nat.digits_lt_base (by norm_num) hd)

theorem decRepr_ne_nil (p : Nat) : decRepr p ≠ [] := by
  rw [decRepr]
  by_cases hp : p = 0
  · rw [if_pos hp]; intro h; cases h
  · rw [if_neg hp]
    intro h
    rw [List.reverse_eq_nil_iff, List.map_eq_nil_iff] at h
    exact Nat.digits_ne_nil_iff_ne_zero.mpr hp h

theorem not_mem_decRepr_of_not_digit (p : Nat) (c : Char)
    (hc : isDecDigit c = false) : c ∉ decRepr p := by
  intro hm
  rw [decRepr_all_digits p c hm] at hc
  cases hc

theorem foldr_digits (l : List Nat) (h : ∀ d ∈ l, d < 10) :
    (l.map Nat.digitChar).foldr (fun c a => a * 10 + (c.toNat - 48)) 0
      = Nat.ofDigits 10 l := by
  induction l with
  | nil => simp [Nat.ofDigits]
  | cons d l ih =>
    simp only [List.map_cons, List.foldr_cons]
    rw [ih (fun x hx => h x (List.mem_cons_of_mem d hx))]
    rw [digitChar_toNat d (h d (List.mem_cons_self d l))]
    rw [Nat.ofDigits_cons]
    ring

theorem decValFrom_decRepr (p : Nat) : decValFrom 0 (decRepr p) = p := by
  rw [decRepr]
  by_cases hp : p = 0
  · rw [if_pos hp]; subst hp; rfl
  · rw [if_neg hp]
    calc decValFrom 0 (((Nat.digits 10 p).map Nat.digitChar).reverse)
        = ((Nat.digits 10 p).map Nat.digitChar).foldr
            (fun c a => a * 10 + (c.toNat - 48)) 0 :=
          List.foldl_reverse _ _ _
      _ = Nat.ofDigits 10 (Nat.digits 10 p) :=
          foldr_digits _ (fun d hd => Nat.digits_lt_base (by norm_num) hd)
      _ = p := Nat.ofDigits_digits 10 p

theorem splitHostPort_port (s hst prt : List Char)
    (h : splitHostPort s = ((hst, prt), none)) :
    ∃ pre, splitLast ':' s = some (pre, prt) := by
  rw [splitHostPort] at h
  cases hsl : splitLast ':' s with
  | none => simp only [hsl] at h; cases h
  | some pp =>
    obtain ⟨pre, post⟩ := pp
    simp only [hsl] at h
    by_cases hb : s.head? = some '['
    · rw [if_pos hb] at h
      cases hsf : splitFirst ']' s.tail with
      | none => simp only [hsf] at h; cases h
      | some mt =>
        obtain ⟨mid, tail⟩ := mt
        simp only [hsf] at h
        cases tail with
        | nil => cases h
        | cons c t =>
          dsimp only at h
          by_cases hcq : c = ':'
          · rw [if_pos hcq] at h
            by_cases h1 : t.contains ':' = true
            · rw [if_pos h1] at h; cases h
            · rw [if_neg h1] at h
              by_cases h2 : (mid ++ ']' :: ':' :: t).contains '[' = true
              · rw [if_pos h2] at h; cases h
              · rw [if_neg h2] at h
                by_cases h3 : ((':' :: t) : List Char).contains ']' = true
                · rw [if_pos h3] at h; cases h
                · rw [if_neg h3] at h
                  simp only [Prod.mk.injEq] at h
                  obtain ⟨⟨hh1, hh2⟩, -⟩ := h
                  -- reconstruct s and locate its last colon
                  have hcons : s = '[' :: s.tail := by
                    cases s with
                    | nil => cases hb
                    | cons a as =>
                      simp only [List.head?] at hb
                      injection hb with hb1
                      rw [hb1]
                      rfl
                  have hdec : s.tail = mid ++ ']' :: c :: t :=
                    splitFirst_decomp ']' s.tail mid (c :: t) hsf
                  have hnc : ':' ∉ t := by
                    intro hm
                    rw [(contains_iff_mem t ':').mpr hm] at h1
                    exact h1 rfl
                  have hs2 : s = ('[' :: (mid ++ [']'])) ++ ':' :: t := by
                    rw [hcons, hdec, hcq]
                    simp
                  have := splitLast_append ':' ('[' :: (mid ++ [']'])) t hnc
                  rw [← hs2] at this
                  rw [hsl] at this
                  simp only [Option.some.injEq, Prod.mk.injEq] at this
                  refine ⟨pre, ?_⟩
                  rw [this.2, hh2]
          · rw [if_neg hcq] at h; cases h
    · rw [if_neg hb] at h
      by_cases h1 : pre.contains ':' = true
      · rw [if_pos h1] at h; cases h
      · rw [if_neg h1] at h
        by_cases h2 : s.contains '[' = true
        · rw [if_pos h2] at h; cases h
        · rw [if_neg h2] at h
          by_cases h3 : s.contains ']' = true
          · rw [if_pos h3] at h; cases h
          · rw [if_neg h3] at h
            simp only [Prod.mk.injEq] at h
            obtain ⟨⟨-, hh2⟩, -⟩ := h
            refine ⟨pre, ?_⟩
            rw [hh2]

theorem makePort_no_colon (s : List Char) (h : s.contains ':' = false) :
    (makePort s).1 = 0 ∧ ((makePort s).2).isSome = true := by
  have hm : ':' ∉ s := by
    intro hmem
    rw [(contains_iff_mem s ':').mpr hmem] at h
    cases h
  have hsl := splitLast_eq_none ':' s hm
  simp [makePort, splitHostPort, hsl]

theorem makePort_bad_port (s pre post : List Char)
    (hsl : splitLast ':' s = some (pre, post)) (hbad : isPort16 post = false) :
    (makePort s).1 = 0 ∧ ((makePort s).2).isSome = true := by
  rcases hshp : splitHostPort s with ⟨⟨hst, prt⟩, err⟩
  cases err with
  | some e => simp [makePort, hshp]
  | none =>
    obtain ⟨pre2, hsl2⟩ := splitHostPort_port s hst prt hshp
    rw [hsl] at hsl2
    have hpp : prt = post := by
      simp only [Option.some.injEq, Prod.mk.injEq] at hsl2
      exact hsl2.2.symm
    have hpe := parseUint_err prt (by rw [hpp]; exact hbad)
    rcases hpu : parseUint prt 16 with ⟨v, perr⟩
    cases perr with
    | none => rw [hpu] at hpe; cases hpe
    | some e2 => simp [makePort, hshp, hpu]

theorem makeAddr_roundtrip (p : Nat) (hp : p < 2 ^ 16) :
    makePort (makeAddr p) = (p, none) := by
  have hnc : ':' ∉ decRepr p := not_mem_decRepr_of_not_digit p ':' (by decide)
  have hsl : splitLast ':' (':' :: decRepr p) = some ([], decRepr p) := by
    have h0 := splitLast_append ':' [] (decRepr p) hnc
    simpa using h0
  have hnb : ('[' : Char) ∉ ':' :: decRepr p := by
    intro hm
    rcases List.mem_cons.mp hm with h1 | h2
    · exact absurd h1 (by decide)
    · exact absurd h2 (not_mem_decRepr_of_not_digit p '[' (by decide))
  have hnb2 : (']' : Char) ∉ ':' :: decRepr p := by
    intro hm
    rcases List.mem_cons.mp hm with h1 | h2
    · exact absurd h1 (by decide)
    · exact absurd h2 (not_mem_decRepr_of_not_digit p ']' (by decide))
  have hb : ¬((':' :: decRepr p).head? = some '[') := by
    intro h
    simp only [List.head?, Option.some.injEq] at h
    exact absurd h (by decide)
  have hc1 : (([] : List Char).contains ':') = false := rfl
  have hc2 : ((':' :: decRepr p).contains '[') = false :=
    contains_eq_false_of_not_mem _ _ hnb
  have hc3 : ((':' :: decRepr p).contains ']') = false :=
    contains_eq_false_of_not_mem _ _ hnb2
  have hshp : splitHostPort (makeAddr p) = (([], decRepr p), none) := by
    rw [makeAddr, splitHostPort]
    simp only [hsl]
    rw [if_neg hb]
    rw [if_neg (by rw [hc1]; intro h; cases h)]
    rw [if_neg (by rw [hc2]; intro h; cases h)]
    rw [if_neg (by rw [hc3]; intro h; cases h)]
  have hport : isPort16 (decRepr p) = true := by
    rw [isPort16]
    have h1 : (decRepr p).isEmpty = false := by
      cases hd : decRepr p
      · exact absurd hd (decRepr_ne_nil p)
      · rfl
    have h2 : (decRepr p).all isDecDigit = true :=
      List.all_eq_true.mpr (decRepr_all_digits p)
    have h3 : decValFrom 0 (decRepr p) ≤ 65535 := by
      rw [decValFrom_decRepr]; omega
    rw [h1, h2]
    simp [h3]
  have hpu := parseUint_ok (decRepr p) hport
  rw [decValFrom_decRepr] at hpu
  rw [makePort]
  simp only [hshp, hpu]

/-- C10: the address helpers round-trip — for every 16-bit port `p`,
`makePort (makeAddr p) = (p, nil)` — and `makePort` returns port 0
together with a non-nil error whenever its argument has no colon (no
host:port separator) or the part after the last colon is not a decimal
numeral fitting in 16 bits. -/
theorem makePort_makeAddr_spec :
    (∀ p : Nat, p < 2 ^ 16 → makePort (makeAddr p) = (p, none)) ∧
    (∀ s : List Char, s.contains ':' = false →
      (makePort s).1 = 0 ∧ ((makePort s).2).isSome = true) ∧
    (∀ s pre post : List Char, splitLast ':' s = some (pre, post) →
      isPort16 post = false →
      (makePort s).1 = 0 ∧ ((makePort s).2).isSome = true) :=
  ⟨makeAddr_roundtrip, makePort_no_colon, makePort_bad_port⟩

/-- C10 witness: the round trip at port 35729, an error for an address
with no colon, and an error for a non-numeric port part. -/
theorem makePort_makeAddr_spec_witness :
    makePort (makeAddr 35729) = (35729, none) ∧
    ((makePort ['a']).1 = 0 ∧ ((makePort ['a']).2).isSome = true) ∧
    ((makePort [':', 'x']).1 = 0 ∧ ((makePort [':', 'x']).2).isSome = true) :=
  ⟨makePort_makeAddr_spec.1 35729 (by norm_num),
   makePort_makeAddr_spec.2.1 ['a'] (by decide),
   makePort_makeAddr_spec.2.2 [':', 'x'] [] ['x'] (by decide) (by decide)⟩

end LR
